import Mathlib

set_option maxRecDepth 2000

/-!
Shallow embedding of watchman's `log.c` (logging and crash diagnostics):
severity gates and dispatch of `w_log`, the bounded-buffer line formatter with
its newline fix-up, the fatal path (`log_stack_trace` + `abort`), the
`crash_handler` fault decoder, and the per-thread name registry
(`w_get_thread_name` / `w_set_thread_name`).

Machine strings are modelled as `List Char`; the observable effects of a call
(stderr writes, client forwards, reaching `abort`) are collected explicitly.
-/

namespace Watchman

/-- Modelled from the spec: the severity scale of `watchman.h` (the header is not
among the sources). Severities are an ordered integer scale, numerically lower =
more severe, with fatal the most severe (below error). -/
def W_LOG_FATAL : Int := -1

/-- Modelled from the spec: the ordinary error severity, the default threshold
("errors only"). -/
def W_LOG_ERR : Int := 1

/-- Modelled from the spec: the debug severity, numerically above error. -/
def W_LOG_DBG : Int := 2

/-- Embedding of the initialiser `int log_level = W_LOG_ERR;` (log.c line 26). -/
def log_level_init : Int := W_LOG_ERR

/-- Capacity of the stack buffer `char buf[4096]` in `w_log`. -/
def logBufSize : Nat := 4096

/-- Observable sink effect of a `w_log` call: a `write` of the formatted buffer to
standard error, or a forward of (severity, buffer) to the external client sink
`w_log_to_clients`. -/
inductive LogEvent where
  | stderrWrite (line : List Char)
  | clientLine (level : Int) (line : List Char)
deriving DecidableEq

/-- Result of one `w_log` call: whether the body past the early no-listener return
ran (i.e. formatting work was performed), the sink events in program order, and
whether `abort()` was reached (a result with `aborted = true` models a call that
never returns to its caller). -/
structure LogResult where
  formatted : Bool
  events : List LogEvent
  aborted : Bool
deriving DecidableEq

/-- Environment of a `w_log` call: the process-wide `log_level`, the external
predicate `w_should_log_to_clients`, the platform's backtrace capability (`none`
when `HAVE_BACKTRACE`/`HAVE_BACKTRACE_SYMBOLS` are absent, otherwise the
symbolised frames `backtrace_symbols` would return), and the platform inputs of
the line preamble: the `strftime` output, the millisecond count
`tv.tv_usec / 1000`, and the current thread's name. -/
structure LogEnv where
  log_level : Int
  clientPred : Int → Bool
  frames : Option (List (List Char))
  timebuf : List Char
  ms : Nat
  tname : List Char

/-- Little-endian decimal digits of `n`, with explicit fuel so that the kernel can
evaluate it; agrees with `Nat.digits 10` (see `decDigitsRev_eq_digits`). -/
def decDigitsRev : Nat → Nat → List Nat
  | 0, _ => []
  | fuel + 1, n => if n = 0 then [] else n % 10 :: decDigitsRev fuel (n / 10)

/-- Embedding of the unsigned decimal conversion (`%u`) performed by
`snprintf`/`vasprintf`: most-significant-first decimal digits, with `0`
rendered as `"0"`. -/
def natDecChars (n : Nat) : List Char :=
  if n = 0 then ['0'] else ((decDigitsRev n n).reverse).map Nat.digitChar

/-- Embedding of the signed decimal conversion (`%d`). -/
def intDecChars (i : Int) : List Char :=
  if i < 0 then '-' :: natDecChars i.natAbs else natDecChars i.toNat

/-- Embedding of the `%03d` conversion used for the millisecond field: decimal
digits, zero-padded on the left to width 3. -/
def pad3 (n : Nat) : List Char :=
  List.replicate (3 - (natDecChars n).length) '0' ++ natDecChars n

/-- The preamble written by `snprintf(buf, sizeof(buf), "%s,%03d: [%s] ", timebuf,
(int)tv.tv_usec / 1000, w_get_thread_name())` (log.c lines 153-154). -/
def linePreamble (timebuf : List Char) (ms : Nat) (tname : List Char) : List Char :=
  timebuf ++ [','] ++ pad3 ms ++ [':', ' ', '['] ++ tname ++ [']', ' ']

/-- Contents of `buf` after the `snprintf` and `vsnprintf` calls (log.c lines
153-157): the preamble followed by the rendered user message, truncated to the
buffer capacity minus one byte reserved for the NUL terminator. -/
def renderBuf (pre msg : List Char) : List Char :=
  (pre ++ msg).take (logBufSize - 1)

/-- Embedding of the newline fix-up of `w_log` (log.c lines 164-174): if the
buffer does not already end in a newline, append one when there is room,
otherwise overwrite the last character with a newline. -/
def fixNewline (s : List Char) : List Char :=
  if s.getLast? ≠ some '\n' then
    if s.length < logBufSize - 1 then s ++ ['\n'] else s.dropLast ++ ['\n']
  else s

/-- The complete formatted line a `w_log` call builds in `buf` from the preamble
inputs and the rendered user message. -/
def w_log_format (pre msg : List Char) : List Char :=
  fixNewline (renderBuf pre msg)

/-- One non-fatal dispatch of `w_log` (log.c lines 132-182): evaluate the two sink
gates on the incoming severity, return no events if neither passes, otherwise
normalise fatal to error, format, and emit the stderr write and/or the client
forward (carrying the normalised severity). -/
def w_log_once (env : LogEnv) (level : Int) (msg : List Char) : List LogEvent :=
  let should_log_to_stderr := decide (level ≤ env.log_level)
  let should_log_to_clients := env.clientPred level
  if !(should_log_to_stderr || should_log_to_clients) then []
  else
    let lvl := if level = W_LOG_FATAL then W_LOG_ERR else level
    let line := w_log_format (linePreamble env.timebuf env.ms env.tname) msg
    (if should_log_to_stderr then [LogEvent.stderrWrite line] else []) ++
      (if should_log_to_clients then [LogEvent.clientLine lvl line] else [])

/-- Embedding of `log_stack_trace` (log.c lines 6-24): nothing when the platform
lacks backtrace support; otherwise one `w_log(W_LOG_ERR, "Fatal error detected
at:\n")` header call followed by one `w_log(W_LOG_ERR, "%s\n", strings[i])` call
per captured frame, in capture order. -/
def log_stack_trace (env : LogEnv) : List LogEvent :=
  match env.frames with
  | none => []
  | some fs =>
    w_log_once env W_LOG_ERR ("Fatal error detected at:\n".data) ++
      (fs.map (fun s => w_log_once env W_LOG_ERR (s ++ ['\n']))).flatten

/-- Embedding of `w_log` (log.c lines 122-188): early return when neither sink
gate passes; otherwise dispatch, and when the incoming severity was
`W_LOG_FATAL` additionally run `log_stack_trace` and `abort()` (the call then
never returns). -/
def w_log (env : LogEnv) (level : Int) (msg : List Char) : LogResult :=
  let should_log_to_stderr := decide (level ≤ env.log_level)
  let should_log_to_clients := env.clientPred level
  if !(should_log_to_stderr || should_log_to_clients) then
    { formatted := false, events := [], aborted := false }
  else if level = W_LOG_FATAL then
    { formatted := true
      events := w_log_once env level msg ++ log_stack_trace env
      aborted := true }
  else
    { formatted := true, events := w_log_once env level msg, aborted := false }

/-- Projection of the stderr sink: the buffers passed to
`write(STDERR_FILENO, ...)`, in order. -/
def stderrLines (evs : List LogEvent) : List (List Char) :=
  evs.filterMap fun e =>
    match e with
    | LogEvent.stderrWrite l => some l
    | LogEvent.clientLine _ _ => none

/-- Projection of the client sink: the (severity, buffer) pairs passed to
`w_log_to_clients`, in order. -/
def clientSends (evs : List LogEvent) : List (Int × List Char) :=
  evs.filterMap fun e =>
    match e with
    | LogEvent.stderrWrite _ => none
    | LogEvent.clientLine lv l => some (lv, l)

/-- A list ends in exactly one trailing newline: its last character is a newline
and the character before it (when present) is not. -/
def endsInOneNewline (s : List Char) : Prop :=
  s.getLast? = some '\n' ∧ s.dropLast.getLast? ≠ some '\n'

instance (s : List Char) : Decidable (endsInOneNewline s) := by
  unfold endsInOneNewline
  infer_instance

/-- Embedding of `w_set_thread_name` (log.c lines 111-120) for an already-rendered
name: the previous thread-local name (if any) is freed, the new name is
installed, and the new name is returned. Result: (returned name, new slot,
names freed by the call). -/
def w_set_thread_name (slot : Option (List Char)) (rendered : List Char) :
    List Char × Option (List Char) × List (List Char) :=
  (rendered, some rendered, slot.toList)

/-- The default thread name `w_get_thread_name` renders with
`"%" PRIu32` from `(uint32_t)(uintptr_t)pthread_self()`: the thread identifier
truncated to 32 bits, in decimal. -/
def defaultThreadName (tid : Nat) : List Char :=
  natDecChars (tid % 2 ^ 32)

/-- Embedding of `w_get_thread_name` (log.c lines 103-109): return the
thread-local name when set, otherwise install (via `w_set_thread_name`) and
return the default name rendered from the thread identifier. Result shape
matches `w_set_thread_name`. -/
def w_get_thread_name (slot : Option (List Char)) (tid : Nat) :
    List Char × Option (List Char) × List (List Char) :=
  match slot with
  | some n => (n, some n, [])
  | none => w_set_thread_name none (defaultThreadName tid)

/-- Modelled from the platform's `signal.h` (not among the sources): Linux value
of `SIGILL`. -/
def SIGILL : Int := 4

/-- Modelled from the platform's `signal.h`: Linux value of `SIGBUS`. -/
def SIGBUS : Int := 7

/-- Modelled from the platform's `signal.h`: Linux value of `SIGFPE`. -/
def SIGFPE : Int := 8

/-- Modelled from the platform's `signal.h`: Linux value of `SIGSEGV`. -/
def SIGSEGV : Int := 11

/-- Modelled from the platform's `signal.h`: `ILL_*` sub-codes 1-8. -/
def ILL_ILLOPC : Int := 1
def ILL_ILLOPN : Int := 2
def ILL_ILLADR : Int := 3
def ILL_ILLTRP : Int := 4
def ILL_PRVOPC : Int := 5
def ILL_PRVREG : Int := 6
def ILL_COPROC : Int := 7
def ILL_BADSTK : Int := 8

/-- Modelled from the platform's `signal.h`: `FPE_*` sub-codes 1-8. -/
def FPE_INTDIV : Int := 1
def FPE_INTOVF : Int := 2
def FPE_FLTDIV : Int := 3
def FPE_FLTOVF : Int := 4
def FPE_FLTUND : Int := 5
def FPE_FLTRES : Int := 6
def FPE_FLTINV : Int := 7
def FPE_FLTSUB : Int := 8

/-- Modelled from the platform's `signal.h`: `SEGV_*` sub-codes. -/
def SEGV_MAPERR : Int := 1
def SEGV_ACCERR : Int := 2

/-- Modelled from the platform's `signal.h`: `BUS_*` sub-codes. -/
def BUS_ADRALN : Int := 1
def BUS_ADRERR : Int := 2

/-- Embedding of the nested `switch` of `crash_handler` (log.c lines 33-75)
mapping a (signal, sub-code) pair to a reason string; any pair the table does
not recognise keeps the initial empty reason. -/
def decodeReason (signo code : Int) : List Char :=
  if signo = SIGILL then
    if code = ILL_ILLOPC then "illegal opcode".data
    else if code = ILL_ILLOPN then "illegal operand".data
    else if code = ILL_ILLADR then "illegal addressing mode".data
    else if code = ILL_ILLTRP then "illegal trap".data
    else if code = ILL_PRVOPC then "privileged opcode".data
    else if code = ILL_PRVREG then "privileged register".data
    else if code = ILL_COPROC then "co-processor error".data
    else if code = ILL_BADSTK then "internal stack error".data
    else []
  else if signo = SIGFPE then
    if code = FPE_INTDIV then "integer divide by zero".data
    else if code = FPE_INTOVF then "integer overflow".data
    else if code = FPE_FLTDIV then "floating point divide by zero".data
    else if code = FPE_FLTOVF then "floating point overflow".data
    else if code = FPE_FLTUND then "floating point underflow".data
    else if code = FPE_FLTRES then "floating point inexact result".data
    else if code = FPE_FLTINV then "invalid floating point operation".data
    else if code = FPE_FLTSUB then "subscript out of range".data
    else []
  else if signo = SIGSEGV then
    if code = SEGV_MAPERR then "address not mapped to object".data
    else if code = SEGV_ACCERR then "invalid permissions for mapped object".data
    else []
  else if signo = SIGBUS then
    if code = BUS_ADRALN then "invalid address alignment".data
    else if code = BUS_ADRERR then "non-existent physical address".data
    else []
  else []

/-- The message `crash_handler` builds for its `w_log` call:
`"Terminating due to signal %d %s. %s (%p)\n"` applied to the signal number,
`strsignal(signo)`, the decoded reason, and the rendered fault value. -/
def crashMsg (signo : Int) (strsig reason sival : List Char) : List Char :=
  "Terminating due to signal ".data ++ intDecChars signo ++ [' '] ++ strsig ++
    ". ".data ++ reason ++ " (".data ++ sival ++ [')', '\n']

/-- Embedding of `crash_handler` (log.c lines 30-78): decode the reason from the
delivered `siginfo_t` (the reason stays empty when `si` is NULL), then invoke
`w_log(W_LOG_FATAL, ...)` with the crash message. `strsig` abstracts
`strsignal(signo)` and `sival` the `%p` rendering of `si->si_value.sival_ptr`
(or of NULL). -/
def crash_handler (env : LogEnv) (signo : Int) (si : Option (Int × Int))
    (strsig sival : List Char) : LogResult :=
  let reason :=
    match si with
    | none => []
    | some p => decodeReason p.1 p.2
  w_log env W_LOG_FATAL (crashMsg signo strsig reason sival)

/-- A concrete environment where every gate passes and the platform captures two
frames; used by concrete witnesses. -/
def envTrue : LogEnv :=
  { log_level := W_LOG_ERR, clientPred := fun _ => true,
    frames := some [['f', '0'], ['f', '1']],
    timebuf := "2012-01-01T00:00:00".data, ms := 0, tname := "main".data }

/-- A concrete environment with no listeners: the default "errors only" level and
a client predicate that always declines. -/
def envQuiet : LogEnv :=
  { log_level := log_level_init, clientPred := fun _ => false, frames := some [['f', '0']],
    timebuf := "2012-01-01T00:00:00".data, ms := 0, tname := "main".data }

/-- A concrete environment whose configured level sits strictly between the fatal
and error severity values, with a declining client predicate. -/
def envMid : LogEnv :=
  { log_level := 0, clientPred := fun _ => false, frames := none,
    timebuf := "2012-01-01T00:00:00".data, ms := 0, tname := "main".data }

/-- A concrete environment whose configured level is below even the fatal
severity value. -/
def envDeaf : LogEnv :=
  { log_level := -2, clientPred := fun _ => false, frames := some [['f', '0']],
    timebuf := "2012-01-01T00:00:00".data, ms := 0, tname := "main".data }

lemma w_log_once_pass (env : LogEnv) (level : Int) (msg : List Char)
    (h1 : level ≤ env.log_level) (h2 : env.clientPred level = true)
    (h3 : level ≠ W_LOG_FATAL) :
    w_log_once env level msg =
      [LogEvent.stderrWrite (w_log_format (linePreamble env.timebuf env.ms env.tname) msg),
       LogEvent.clientLine level
         (w_log_format (linePreamble env.timebuf env.ms env.tname) msg)] := by
  simp [w_log_once, h1, h2, h3]

lemma w_log_once_fatal_pass (env : LogEnv) (msg : List Char)
    (h1 : W_LOG_FATAL ≤ env.log_level) (h2 : env.clientPred W_LOG_FATAL = true) :
    w_log_once env W_LOG_FATAL msg =
      [LogEvent.stderrWrite (w_log_format (linePreamble env.timebuf env.ms env.tname) msg),
       LogEvent.clientLine W_LOG_ERR
         (w_log_format (linePreamble env.timebuf env.ms env.tname) msg)] := by
  simp [w_log_once, h1, h2]

lemma stderrLines_append (a b : List LogEvent) :
    stderrLines (a ++ b) = stderrLines a ++ stderrLines b := by
  simp [stderrLines, List.filterMap_append]

lemma stderrLines_trace_frames (env : LogEnv) (fs : List (List Char))
    (hll : W_LOG_ERR ≤ env.log_level) (hce : env.clientPred W_LOG_ERR = true) :
    stderrLines ((fs.map (fun s => w_log_once env W_LOG_ERR (s ++ ['\n']))).flatten) =
      fs.map (fun f =>
        w_log_format (linePreamble env.timebuf env.ms env.tname) (f ++ ['\n'])) := by
  induction fs with
  | nil => simp [stderrLines]
  | cons a t ih =>
    rw [List.map_cons, List.flatten_cons, stderrLines_append, ih,
      w_log_once_pass env W_LOG_ERR (a ++ ['\n']) hll hce (by decide)]
    simp [stderrLines]

/-- C2: a `w_log` call whose severity is numerically above the configured level
and for which the client predicate declines returns immediately: no formatting
work, no stderr write, no client forward. -/
theorem no_listener_early_return (env : LogEnv) (level : Int) (msg : List Char)
    (h1 : env.log_level < level) (h2 : env.clientPred level = false) :
    w_log env level msg = { formatted := false, events := [], aborted := false } := by
  have h1' : ¬ level ≤ env.log_level := not_le.mpr h1
  simp [w_log, h1', h2]

/-- Witness for C2 at a concrete input: debug severity against the default
"errors only" level with a declining client predicate. -/
theorem no_listener_early_return_witness :
    envQuiet.log_level < W_LOG_DBG ∧
      w_log envQuiet W_LOG_DBG ['x'] =
        { formatted := false, events := [], aborted := false } :=
  ⟨by decide, no_listener_early_return envQuiet W_LOG_DBG ['x'] (by decide) rfl⟩

/-- C3: a fatal-severity `w_log` call for which neither gate passes (the fatal
severity value is above the configured level and the client predicate declines)
returns normally: no events, no stack trace, no `abort()` — the early
no-listener return takes precedence over the fatal flag. -/
theorem fatal_no_listener_returns_normally (env : LogEnv) (msg : List Char)
    (h1 : env.log_level < W_LOG_FATAL) (h2 : env.clientPred W_LOG_FATAL = false) :
    w_log env W_LOG_FATAL msg = { formatted := false, events := [], aborted := false } := by
  have h1' : ¬ W_LOG_FATAL ≤ env.log_level := not_le.mpr h1
  simp [w_log, h1', h2]

/-- Witness for C3 at a concrete input: the configured level sits below the
fatal severity value and the client predicate declines, yet backtrace support
is present; the call still returns normally with no events. -/
theorem fatal_no_listener_returns_normally_witness :
    envDeaf.log_level < W_LOG_FATAL ∧
      w_log envDeaf W_LOG_FATAL ['x'] =
        { formatted := false, events := [], aborted := false } :=
  ⟨by decide, fatal_no_listener_returns_normally envDeaf ['x'] (by decide) rfl⟩

/-- C1: a fatal `w_log` call whose sink gates pass writes its own formatted line,
then the "Fatal error detected at:" header line, then one line per captured
stack frame in capture order (and no header or frame lines when the platform
lacks backtrace support), and then reaches `abort()`: the result is marked
`aborted`, modelling that control never returns to the caller. -/
theorem fatal_log_emits_header_then_frames_then_aborts (env : LogEnv) (msg : List Char)
    (hll : W_LOG_ERR ≤ env.log_level)
    (hcf : env.clientPred W_LOG_FATAL = true)
    (hce : env.clientPred W_LOG_ERR = true) :
    (w_log env W_LOG_FATAL msg).aborted = true ∧
      stderrLines (w_log env W_LOG_FATAL msg).events =
        w_log_format (linePreamble env.timebuf env.ms env.tname) msg ::
          (match env.frames with
           | none => []
           | some fs =>
               w_log_format (linePreamble env.timebuf env.ms env.tname)
                   ("Fatal error detected at:\n".data) ::
                 fs.map (fun f =>
                   w_log_format (linePreamble env.timebuf env.ms env.tname) (f ++ ['\n']))) := by
  have hf : W_LOG_FATAL ≤ env.log_level :=
    le_trans (by decide : W_LOG_FATAL ≤ W_LOG_ERR) hll
  have hw : w_log env W_LOG_FATAL msg =
      { formatted := true
        events := w_log_once env W_LOG_FATAL msg ++ log_stack_trace env
        aborted := true } := by
    simp [w_log, hf, hcf]
  refine ⟨by rw [hw], ?_⟩
  rw [hw]
  show stderrLines (w_log_once env W_LOG_FATAL msg ++ log_stack_trace env) = _
  rw [stderrLines_append, w_log_once_fatal_pass env msg hf hcf]
  cases hfr : env.frames with
  | none => simp [log_stack_trace, hfr, stderrLines]
  | some fs =>
    rw [log_stack_trace, hfr]
    show _ ++ stderrLines (_ ++ _) = _
    rw [stderrLines_append, stderrLines_trace_frames env fs hll hce,
      w_log_once_pass env W_LOG_ERR ("Fatal error detected at:\n".data) hll hce (by decide)]
    simp [stderrLines]

/-- Witness for C1 at a concrete input: both gates pass, two frames captured;
the call aborts and stderr receives the fatal line, the header, then the two
frame lines. -/
theorem fatal_log_emits_header_then_frames_then_aborts_witness :
    (w_log envTrue W_LOG_FATAL "boom".data).aborted = true ∧
      stderrLines (w_log envTrue W_LOG_FATAL "boom".data).events =
        w_log_format (linePreamble envTrue.timebuf envTrue.ms envTrue.tname) "boom".data ::
          (match envTrue.frames with
           | none => []
           | some fs =>
               w_log_format (linePreamble envTrue.timebuf envTrue.ms envTrue.tname)
                   ("Fatal error detected at:\n".data) ::
                 fs.map (fun f =>
                   w_log_format (linePreamble envTrue.timebuf envTrue.ms envTrue.tname)
                     (f ++ ['\n']))) :=
  fatal_log_emits_header_then_frames_then_aborts envTrue "boom".data (by decide) rfl rfl

lemma clientLine_mem_w_log_once (env : LogEnv) (level : Int) (m : List Char)
    (lvl : Int) (line : List Char) :
    LogEvent.clientLine lvl line ∈ w_log_once env level m →
      lvl = if level = W_LOG_FATAL then W_LOG_ERR else level := by
  intro hm
  cases hs : decide (level ≤ env.log_level) <;> cases hc : env.clientPred level <;>
    simp [w_log_once, hs, hc] at hm <;> simp [hm]

lemma clientLine_mem_log_stack_trace (env : LogEnv) (lvl : Int) (line : List Char) :
    LogEvent.clientLine lvl line ∈ log_stack_trace env → lvl = W_LOG_ERR := by
  have hne : W_LOG_ERR = W_LOG_FATAL ↔ False := by simp [W_LOG_ERR, W_LOG_FATAL]
  unfold log_stack_trace
  cases hfr : env.frames with
  | none => simp
  | some fs =>
    intro hm
    rcases List.mem_append.mp hm with h | h
    · have := clientLine_mem_w_log_once env W_LOG_ERR _ lvl line h
      simpa [hne] using this
    · rcases List.mem_flatten.mp h with ⟨l, hl, hml⟩
      rcases List.mem_map.mp hl with ⟨f, _, rfl⟩
      have := clientLine_mem_w_log_once env W_LOG_ERR _ lvl line hml
      simpa [hne] using this

/-- C4 counterexample: it is not the case that a fatal call's eligibility is
decided with the error severity. With the configured level strictly between the
fatal and error values and a declining client predicate, both error-severity
gates fail, yet the call formats (and emits): the gates were evaluated with the
original fatal value before normalisation. -/
theorem fatal_gates_not_error_severity_cex :
    ¬ (∀ (env : LogEnv) (msg : List Char),
        (w_log env W_LOG_FATAL msg).formatted =
          (decide (W_LOG_ERR ≤ env.log_level) || env.clientPred W_LOG_ERR)) := by
  intro h
  have hx := h envMid ['x']
  exact absurd hx (by decide)

/-- C4 (amended): the two sink gates are evaluated with the original fatal
severity value; the severity is normalised to error only after the gate check,
so every line forwarded to the client sink carries the error severity, and the
remembered fatal flag makes every fatal call that passes the gate check reach
`abort()`. -/
theorem fatal_normalized_after_gate_check (env : LogEnv) (msg : List Char) :
    (w_log env W_LOG_FATAL msg).formatted =
        (decide (W_LOG_FATAL ≤ env.log_level) || env.clientPred W_LOG_FATAL) ∧
      (∀ lvl line, LogEvent.clientLine lvl line ∈ (w_log env W_LOG_FATAL msg).events →
          lvl = W_LOG_ERR) ∧
      ((w_log env W_LOG_FATAL msg).formatted = true →
        (w_log env W_LOG_FATAL msg).aborted = true) := by
  cases hg : (decide (W_LOG_FATAL ≤ env.log_level) || env.clientPred W_LOG_FATAL) with
  | false =>
    have hw : w_log env W_LOG_FATAL msg =
        { formatted := false, events := [], aborted := false } := by
      simp [w_log, hg]
    refine ⟨by rw [hw], ?_, ?_⟩ <;> simp [hw]
  | true =>
    have hw : w_log env W_LOG_FATAL msg =
        { formatted := true
          events := w_log_once env W_LOG_FATAL msg ++ log_stack_trace env
          aborted := true } := by
      simp [w_log, hg]
    refine ⟨by rw [hw], ?_, by simp [hw]⟩
    intro lvl line hm
    rw [hw] at hm
    rcases List.mem_append.mp hm with h | h
    · have := clientLine_mem_w_log_once env W_LOG_FATAL msg lvl line h
      simpa using this
    · exact clientLine_mem_log_stack_trace env lvl line h

/-- Witness for C4's amended theorem at a concrete input: with both gates
passing, the fatal flag makes the call reach `abort()`, discharging the
formatted-implies-aborted hypothesis concretely. -/
theorem fatal_normalized_after_gate_check_witness :
    (w_log envTrue W_LOG_FATAL ['m']).aborted = true :=
  (fatal_normalized_after_gate_check envTrue ['m']).2.2 rfl

lemma fixNewline_of_last_nl {s : List Char} (h : s.getLast? = some '\n') :
    fixNewline s = s := by
  simp [fixNewline, h]

lemma fixNewline_append {s : List Char} (h1 : s.getLast? ≠ some '\n')
    (h2 : s.length < logBufSize - 1) : fixNewline s = s ++ ['\n'] := by
  simp [fixNewline, h1, h2]

lemma fixNewline_overwrite {s : List Char} (h1 : s.getLast? ≠ some '\n')
    (h2 : ¬ s.length < logBufSize - 1) : fixNewline s = s.dropLast ++ ['\n'] := by
  simp only [fixNewline, if_pos h1, if_neg h2]

lemma fixNewline_getLast (s : List Char) : (fixNewline s).getLast? = some '\n' := by
  by_cases h1 : s.getLast? = some '\n'
  · rw [fixNewline_of_last_nl h1, h1]
  · by_cases h2 : s.length < logBufSize - 1
    · rw [fixNewline_append h1 h2, List.getLast?_concat]
    · rw [fixNewline_overwrite h1 h2, List.getLast?_concat]

lemma renderBuf_of_fits (pre msg : List Char)
    (h : pre.length + msg.length ≤ logBufSize - 1) : renderBuf pre msg = pre ++ msg := by
  apply List.take_of_length_le
  simp only [List.length_append]
  exact h

lemma length_renderBuf_of_over (pre msg : List Char)
    (h : logBufSize - 1 ≤ pre.length + msg.length) :
    (renderBuf pre msg).length = logBufSize - 1 := by
  simp only [renderBuf, List.length_take, List.length_append]
  omega

lemma w_log_format_length_of_over (pre msg : List Char)
    (hover : logBufSize - 1 ≤ pre.length + msg.length) :
    (w_log_format pre msg).length = logBufSize - 1 := by
  have hlen := length_renderBuf_of_over pre msg hover
  rw [w_log_format]
  by_cases h1 : (renderBuf pre msg).getLast? = some '\n'
  · rw [fixNewline_of_last_nl h1, hlen]
  · rw [fixNewline_overwrite h1 (by omega)]
    simp only [List.length_append, List.length_dropLast, hlen, List.length_cons,
      List.length_nil]
    have hBS : logBufSize = 4096 := rfl
    omega

lemma renderBuf_take_pre (pre msg : List Char) (hk : pre.length ≤ logBufSize - 1) :
    (renderBuf pre msg).take pre.length = pre := by
  rw [renderBuf, List.take_take, inf_of_le_left hk, List.take_left]

/-- C5 counterexample: the claim that the emitted buffer always ends in exactly
one trailing newline fails. For a user message that itself ends in two
newlines, the formatter appends nothing and the emitted buffer ends in two
newlines: its last character is a newline and so is the one before it. -/
theorem format_two_trailing_newlines_cex :
    (w_log_format (linePreamble "2012-01-01T00:00:00".data 0 "main".data)
        "a\n\n".data).getLast? = some '\n' ∧
      ¬ endsInOneNewline
        (w_log_format (linePreamble "2012-01-01T00:00:00".data 0 "main".data)
          "a\n\n".data) := by
  constructor
  · decide
  · decide

/-- C5 (amended): the emitted buffer always ends in a trailing newline. When the
rendered message does not already end in one, exactly one newline is appended
without growing the buffer beyond its capacity — when the buffer is exactly
full the last character is overwritten with a newline instead — and when the
rendered message already ends in a newline none is appended (the buffer then
simply ends with the message, which may leave more than one trailing
newline). -/
theorem format_newline_policy (pre msg : List Char) (_hpre : pre ≠ []) :
    (pre.length + msg.length ≤ logBufSize - 1 → msg.getLast? = some '\n' →
        w_log_format pre msg = pre ++ msg) ∧
      (pre.length + msg.length < logBufSize - 1 → msg.getLast? ≠ some '\n' → msg ≠ [] →
        w_log_format pre msg = pre ++ msg ++ ['\n']) ∧
      (logBufSize - 1 ≤ pre.length + msg.length →
        (w_log_format pre msg).length = logBufSize - 1) ∧
      (w_log_format pre msg).getLast? = some '\n' := by
  refine ⟨?_, ?_, w_log_format_length_of_over pre msg, fixNewline_getLast _⟩
  · intro hfits hnl
    rw [w_log_format, renderBuf_of_fits pre msg hfits]
    apply fixNewline_of_last_nl
    rw [List.getLast?_append, hnl]
    rfl
  · intro hfits hnl hm
    rw [w_log_format, renderBuf_of_fits pre msg (le_of_lt hfits)]
    have hlast : (pre ++ msg).getLast? = msg.getLast? := by
      rw [List.getLast?_append, List.getLast?_eq_getLast msg hm]
      rfl
    apply fixNewline_append
    · rw [hlast]; exact hnl
    · simp only [List.length_append]; exact hfits

/-- Witness for C5's amended theorem at a concrete input: a short message with no
trailing newline gets exactly one appended after the preamble. -/
theorem format_newline_policy_witness :
    w_log_format (linePreamble "2012-01-01T00:00:00".data 0 "main".data) "hello".data =
      linePreamble "2012-01-01T00:00:00".data 0 "main".data ++ "hello".data ++ ['\n'] :=
  (format_newline_policy (linePreamble "2012-01-01T00:00:00".data 0 "main".data)
      "hello".data (by decide)).2.1 (by decide) (by decide) (by decide)

lemma format_keeps_two_newlines (pre rep : List Char)
    (hlen : (pre ++ rep).length = logBufSize - 3) :
    ¬ endsInOneNewline (w_log_format pre (rep ++ ['\n', '\n', '\n'])) := by
  intro hc
  have hsplit : pre ++ (rep ++ ['\n', '\n', '\n']) = (pre ++ rep) ++ ['\n', '\n', '\n'] :=
    (List.append_assoc pre rep _).symm
  have htk : logBufSize - 1 - (logBufSize - 3) = 2 := by decide
  have hcontent : renderBuf pre (rep ++ ['\n', '\n', '\n']) = (pre ++ rep) ++ ['\n', '\n'] := by
    rw [renderBuf, hsplit, List.take_append_eq_append_take,
      List.take_of_length_le (by omega), hlen, htk]
    rfl
  have hpair : (pre ++ rep) ++ ['\n', '\n'] = ((pre ++ rep) ++ ['\n']) ++ ['\n'] := by
    simp
  have hfix : w_log_format pre (rep ++ ['\n', '\n', '\n']) = (pre ++ rep) ++ ['\n', '\n'] := by
    rw [w_log_format, hcontent]
    apply fixNewline_of_last_nl
    rw [hpair]
    exact List.getLast?_concat _
  rcases hc with ⟨h1, h2⟩
  apply h2
  rw [hfix, hpair, List.dropLast_concat, List.getLast?_concat]

/-- C6 counterexample: under truncation the emitted buffer need not end in
exactly one newline. With a message that overflows the buffer such that the
truncated contents end in two newlines, the fix-up leaves both: the rendered
length exceeds the capacity, yet the emitted buffer's last two characters are
both newlines. -/
theorem truncated_format_two_newlines_cex :
    logBufSize - 1 <
        (linePreamble "2012-01-01T00:00:00".data 0 "main".data).length +
          (List.replicate 4061 'a' ++ ['\n', '\n', '\n']).length ∧
      ¬ endsInOneNewline
        (w_log_format (linePreamble "2012-01-01T00:00:00".data 0 "main".data)
          (List.replicate 4061 'a' ++ ['\n', '\n', '\n'])) := by
  have h32 : (linePreamble "2012-01-01T00:00:00".data 0 "main".data).length = 32 := rfl
  constructor
  · rw [List.length_append, List.length_replicate, h32]
    decide
  · exact format_keeps_two_newlines _ _
      (by rw [List.length_append, List.length_replicate, h32]; decide)

/-- C6 (amended): for every message whose rendered length (preamble plus user
message) exceeds the buffer capacity, the emitted buffer is truncated to the
capacity (4095 characters plus the NUL terminator), still ends with a newline,
and the preamble survives intact — the user message, not the
timestamp/thread-name preamble, is what gets truncated. -/
theorem truncation_keeps_preamble_and_newline (pre msg : List Char)
    (hover : logBufSize - 1 < pre.length + msg.length)
    (hpre : pre.length ≤ logBufSize - 2) :
    (w_log_format pre msg).length = logBufSize - 1 ∧
      (w_log_format pre msg).getLast? = some '\n' ∧
      (w_log_format pre msg).take pre.length = pre := by
  have hBS : logBufSize = 4096 := rfl
  have hlen := length_renderBuf_of_over pre msg (le_of_lt hover)
  refine ⟨w_log_format_length_of_over pre msg (le_of_lt hover), fixNewline_getLast _, ?_⟩
  rw [w_log_format]
  by_cases h1 : (renderBuf pre msg).getLast? = some '\n'
  · rw [fixNewline_of_last_nl h1]
    exact renderBuf_take_pre pre msg (by omega)
  · rw [fixNewline_overwrite h1 (by omega)]
    have he : (logBufSize - 1 - 1) ⊓ (logBufSize - 1) = logBufSize - 2 := by decide
    have hd : (renderBuf pre msg).dropLast = (pre ++ msg).take (logBufSize - 2) := by
      rw [List.dropLast_eq_take, hlen, renderBuf, List.take_take, he]
    rw [List.take_append_of_le_length (by rw [List.length_dropLast, hlen]; omega), hd,
      List.take_take, inf_of_le_left hpre]
    exact List.take_left pre msg

/-- Witness for C6's amended theorem at a concrete input: a 5000-character
message overflows the buffer; the emitted line has exactly the buffer capacity,
ends with a newline, and starts with the intact preamble. -/
theorem truncation_keeps_preamble_and_newline_witness :
    (w_log_format (linePreamble "2012-01-01T00:00:00".data 0 "main".data)
          (List.replicate 5000 'a')).length = logBufSize - 1 ∧
      (w_log_format (linePreamble "2012-01-01T00:00:00".data 0 "main".data)
          (List.replicate 5000 'a')).getLast? = some '\n' ∧
      (w_log_format (linePreamble "2012-01-01T00:00:00".data 0 "main".data)
            (List.replicate 5000 'a')).take
          (linePreamble "2012-01-01T00:00:00".data 0 "main".data).length =
        linePreamble "2012-01-01T00:00:00".data 0 "main".data :=
  truncation_keeps_preamble_and_newline
    (linePreamble "2012-01-01T00:00:00".data 0 "main".data)
    (List.replicate 5000 'a') (by rw [List.length_replicate]; decide) (by decide)

/-- C7: for every message whose rendered body plus preamble fits the buffer, the
line written to stderr is exactly
`"<timestamp>,<ms>: [<thread-name>] <message>\n"`: the `strftime` timestamp, a
comma, the three-digit millisecond count, colon and space, the thread name in
brackets, a space, the rendered user message, and a single trailing newline. -/
theorem fitting_line_shape (env : LogEnv) (level : Int) (msg : List Char)
    (hg : level ≤ env.log_level)
    (hnf : level ≠ W_LOG_FATAL)
    (hm : msg ≠ [])
    (hfits : (linePreamble env.timebuf env.ms env.tname).length + msg.length <
      logBufSize - 1) :
    stderrLines (w_log env level msg).events =
      [env.timebuf ++ [','] ++ pad3 env.ms ++ [':', ' ', '['] ++ env.tname ++ [']', ' '] ++
        (if msg.getLast? = some '\n' then msg.dropLast else msg) ++ ['\n']] := by
  have hev : stderrLines (w_log env level msg).events =
      [w_log_format (linePreamble env.timebuf env.ms env.tname) msg] := by
    cases hc : env.clientPred level <;>
      simp [w_log, w_log_once, hg, hnf, hc, stderrLines]
  rw [hev]
  have hshape : w_log_format (linePreamble env.timebuf env.ms env.tname) msg =
      linePreamble env.timebuf env.ms env.tname ++
        (if msg.getLast? = some '\n' then msg.dropLast else msg) ++ ['\n'] := by
    by_cases hl : msg.getLast? = some '\n'
    · rw [if_pos hl,
        (format_newline_policy (linePreamble env.timebuf env.ms env.tname) msg
          (by simp [linePreamble])).1 (le_of_lt hfits) hl]
      have hlast : msg.getLast hm = '\n' := by
        have := List.getLast?_eq_getLast msg hm
        rw [hl] at this
        exact (Option.some.injEq _ _).mp this.symm
      conv_lhs => rw [← List.dropLast_append_getLast hm, hlast]
      rw [List.append_assoc]
    · rw [if_neg hl,
        (format_newline_policy (linePreamble env.timebuf env.ms env.tname) msg
          (by simp [linePreamble])).2.1 hfits hl hm]
  rw [hshape, linePreamble]

/-- Witness for C7 at a concrete input: an error-severity message against the
default level; the single stderr line is the preamble, the message, and one
newline. -/
theorem fitting_line_shape_witness :
    stderrLines (w_log envTrue W_LOG_ERR "hello".data).events =
      [envTrue.timebuf ++ [','] ++ pad3 envTrue.ms ++ [':', ' ', '['] ++ envTrue.tname ++
        [']', ' '] ++
        (if "hello".data.getLast? = some '\n' then "hello".data.dropLast else "hello".data) ++
        ['\n']] :=
  fitting_line_shape envTrue W_LOG_ERR "hello".data (by decide) (by decide) (by decide)
    (by decide)

/-- C8: the crash handler decodes the (signal, sub-code) pair through the fixed
lookup table — a segmentation violation with sub-code "address not mapped to
object" yields exactly that reason string, and an unrecognised sub-code yields
the empty reason — and then emits one fatal-severity message built from the
signal number, the platform's signal description, the decoded reason, and the
fault value, reaching `abort()`. -/
theorem crash_handler_decodes_and_emits (env : LogEnv) (signo code : Int)
    (strsig sival : List Char)
    (hg : W_LOG_ERR ≤ env.log_level) :
    decodeReason SIGSEGV SEGV_MAPERR = "address not mapped to object".data ∧
      (∀ c : Int, c ≠ SEGV_MAPERR → c ≠ SEGV_ACCERR → decodeReason SIGSEGV c = []) ∧
      (crash_handler env signo (some (signo, code)) strsig sival).aborted = true ∧
      (stderrLines (crash_handler env signo (some (signo, code)) strsig sival).events).head? =
        some (w_log_format (linePreamble env.timebuf env.ms env.tname)
          (crashMsg signo strsig (decodeReason signo code) sival)) ∧
      (∃ u v, crashMsg signo strsig (decodeReason signo code) sival =
          u ++ intDecChars signo ++ v) ∧
      (∃ u v, crashMsg signo strsig (decodeReason signo code) sival = u ++ strsig ++ v) ∧
      (∃ u v, crashMsg signo strsig (decodeReason signo code) sival =
          u ++ decodeReason signo code ++ v) ∧
      (∃ u v, crashMsg signo strsig (decodeReason signo code) sival = u ++ sival ++ v) := by
  have hf : W_LOG_FATAL ≤ env.log_level :=
    le_trans (by decide : W_LOG_FATAL ≤ W_LOG_ERR) hg
  refine ⟨rfl, ?_, ?_, ?_, ?_, ?_, ?_, ?_⟩
  · intro c h1 h2
    simp [decodeReason, SIGILL, SIGFPE, SIGSEGV, SIGBUS, h1, h2]
  · simp [crash_handler, w_log, hf]
  · cases hc : env.clientPred W_LOG_FATAL <;>
      simp [crash_handler, w_log, w_log_once, hf, hc, stderrLines_append, stderrLines]
  · exact ⟨"Terminating due to signal ".data,
      [' '] ++ strsig ++ ". ".data ++ decodeReason signo code ++ " (".data ++ sival ++
        [')', '\n'],
      by simp [crashMsg]⟩
  · exact ⟨"Terminating due to signal ".data ++ intDecChars signo ++ [' '],
      ". ".data ++ decodeReason signo code ++ " (".data ++ sival ++ [')', '\n'],
      by simp [crashMsg]⟩
  · exact ⟨"Terminating due to signal ".data ++ intDecChars signo ++ [' '] ++ strsig ++
        ". ".data,
      " (".data ++ sival ++ [')', '\n'],
      by simp [crashMsg]⟩
  · exact ⟨"Terminating due to signal ".data ++ intDecChars signo ++ [' '] ++ strsig ++
        ". ".data ++ decodeReason signo code ++ " (".data,
      [')', '\n'],
      by simp [crashMsg]⟩

/-- Witness for C8 at a concrete input: a segmentation violation with the
"address not mapped" sub-code delivered in an environment that logs errors; the
handler call reaches `abort()`. -/
theorem crash_handler_decodes_and_emits_witness :
    (crash_handler envTrue SIGSEGV (some (SIGSEGV, SEGV_MAPERR)) "Segmentation fault".data
        "0x0".data).aborted = true :=
  (crash_handler_decodes_and_emits envTrue SIGSEGV SEGV_MAPERR "Segmentation fault".data
      "0x0".data (by decide)).2.2.1

lemma decDigitsRev_eq_digits : ∀ (fuel n : Nat), n ≤ fuel →
    decDigitsRev fuel n = Nat.digits 10 n := by
  intro fuel
  induction fuel with
  | zero =>
    intro n hn
    have h0 : n = 0 := Nat.le_zero.mp hn
    subst h0
    simp [decDigitsRev]
  | succ f ih =>
    intro n hn
    by_cases h0 : n = 0
    · subst h0
      simp [decDigitsRev]
    · have hlt : n / 10 < n := Nat.div_lt_self (Nat.pos_of_ne_zero h0) (by norm_num)
      rw [decDigitsRev, if_neg h0, ih (n / 10) (by omega),
        Nat.digits_def' (by norm_num : (1 : Nat) < 10) (Nat.pos_of_ne_zero h0)]

lemma natDecChars_eq_digits (n : Nat) : natDecChars n =
    if n = 0 then ['0'] else ((Nat.digits 10 n).reverse).map Nat.digitChar := by
  rw [natDecChars, decDigitsRev_eq_digits n n le_rfl]

lemma digitChar_inj10 : ∀ a b : Fin 10, Nat.digitChar a.val = Nat.digitChar b.val → a = b := by
  decide

lemma map_digitChar_inj : ∀ (l1 l2 : List Nat), (∀ x ∈ l1, x < 10) → (∀ x ∈ l2, x < 10) →
    l1.map Nat.digitChar = l2.map Nat.digitChar → l1 = l2 := by
  intro l1
  induction l1 with
  | nil =>
    intro l2 _ _ h
    cases l2 with
    | nil => rfl
    | cons b t2 => simp at h
  | cons a t ih =>
    intro l2 h1 h2 h
    cases l2 with
    | nil => simp at h
    | cons b t2 =>
      simp only [List.map_cons, List.cons.injEq] at h
      have ha : a < 10 := h1 a (by simp)
      have hb : b < 10 := h2 b (by simp)
      have hfin : (⟨a, ha⟩ : Fin 10) = ⟨b, hb⟩ := digitChar_inj10 _ _ h.1
      have hab : a = b := congrArg Fin.val hfin
      rw [hab, ih t2 (fun x hx => h1 x (by simp [hx])) (fun x hx => h2 x (by simp [hx])) h.2]

lemma natDecChars_singleton_zero {b : Nat} (hb : b ≠ 0) (h : natDecChars b = ['0']) :
    False := by
  rw [natDecChars_eq_digits, if_neg hb] at h
  have hlen : ((Nat.digits 10 b).reverse.map Nat.digitChar).length = 1 := by rw [h]; rfl
  rw [List.length_map, List.length_reverse] at hlen
  obtain ⟨d, hd⟩ := List.length_eq_one.mp hlen
  rw [hd] at h
  simp only [List.reverse_cons, List.reverse_nil, List.nil_append, List.map_cons,
    List.map_nil, List.cons.injEq, and_true] at h
  have hdlt : d < 10 := Nat.digits_lt_base (by norm_num)
    (by rw [hd]; exact List.mem_singleton_self d)
  have hfin : (⟨d, hdlt⟩ : Fin 10) = ⟨0, by norm_num⟩ :=
    digitChar_inj10 _ _ (by simpa using h)
  have hd0 : d = 0 := congrArg Fin.val hfin
  have hne := Nat.getLast_digit_ne_zero 10 hb
  have hsome : (Nat.digits 10 b).getLast? = some d := by rw [hd]; rfl
  have hlast := List.getLast?_eq_getLast (Nat.digits 10 b)
    (Nat.digits_ne_nil_iff_ne_zero.mpr hb)
  rw [hsome] at hlast
  exact hne (((Option.some.injEq _ _).mp hlast).symm.trans hd0)

lemma natDecChars_injective : Function.Injective natDecChars := by
  intro a b h
  by_cases ha : a = 0 <;> by_cases hb : b = 0
  · rw [ha, hb]
  · subst ha
    exact (natDecChars_singleton_zero hb (h.symm.trans rfl)).elim
  · subst hb
    exact (natDecChars_singleton_zero ha (h.trans rfl)).elim
  · rw [natDecChars_eq_digits, if_neg ha, natDecChars_eq_digits, if_neg hb] at h
    have h2 := map_digitChar_inj _ _
      (fun x hx => Nat.digits_lt_base (by norm_num) (List.mem_reverse.mp hx))
      (fun x hx => Nat.digits_lt_base (by norm_num) (List.mem_reverse.mp hx)) h
    exact Nat.digits.injective 10 (List.reverse_injective h2)

/-- C9: `w_get_thread_name` called twice on the same thread with no intervening
`w_set_thread_name` returns the identical string; on a thread with no name set
it installs and returns the default name rendered from the thread's (32-bit
truncated) numeric identifier; and two threads whose truncated identifiers
differ receive distinct default names. -/
theorem get_thread_name_stable_and_distinct (slot : Option (List Char)) (tid1 tid2 : Nat)
    (hdiff : tid1 % 2 ^ 32 ≠ tid2 % 2 ^ 32) :
    (w_get_thread_name (w_get_thread_name slot tid1).2.1 tid1).1 =
        (w_get_thread_name slot tid1).1 ∧
      (w_get_thread_name none tid1).1 = defaultThreadName tid1 ∧
      (w_get_thread_name none tid1).1 ≠ (w_get_thread_name none tid2).1 := by
  refine ⟨?_, rfl, ?_⟩
  · cases slot <;> rfl
  · intro h
    simp only [w_get_thread_name, w_set_thread_name, defaultThreadName] at h
    exact hdiff (natDecChars_injective h)

/-- Witness for C9 at concrete inputs: thread identifiers 1 and 2 with an unset
slot; the repeated call is stable and the two defaults differ. -/
theorem get_thread_name_stable_and_distinct_witness :
    (w_get_thread_name (w_get_thread_name none 1).2.1 1).1 =
        (w_get_thread_name none 1).1 ∧
      (w_get_thread_name none 1).1 = defaultThreadName 1 ∧
      (w_get_thread_name none 1).1 ≠ (w_get_thread_name none 2).1 :=
  get_thread_name_stable_and_distinct none 1 2 (by decide)

/-- C10: `w_set_thread_name` returns the newly rendered name, releases exactly
the prior name (if any) when installing the new one, and a subsequent
`w_get_thread_name` on the same thread returns that same name; rendering the
format `"worker-%d"` with argument `7` yields `"worker-7"`. -/
theorem set_thread_name_installs_and_returns (slot : Option (List Char)) (n : Int)
    (tid : Nat) :
    (w_set_thread_name slot ("worker-".data ++ intDecChars n)).1 =
        "worker-".data ++ intDecChars n ∧
      (w_set_thread_name slot ("worker-".data ++ intDecChars n)).2.2 = slot.toList ∧
      (w_get_thread_name (w_set_thread_name slot ("worker-".data ++ intDecChars n)).2.1
          tid).1 = "worker-".data ++ intDecChars n ∧
      "worker-".data ++ intDecChars 7 = "worker-7".data :=
  ⟨rfl, rfl, rfl, by decide⟩

end Watchman
